import Mathlib

/-!
Verification development for the FoodFirst inventory application.

The definitions below are a shallow embedding of the TypeScript source:
- the entity types come from types.ts,
- the date arithmetic models the JavaScript Date methods used by addTime
  and getRemainingDays (index.tsx, lines 41-52), with local time taken as UTC,
- the state-mutating handlers (handleAddIngredient, handleConsume,
  handleDailyStatusUpdate, submit) model the corresponding closures of the
  App component, with the ambient inputs (fresh ids, the current instant,
  the current day string) passed as explicit parameters,
- quantities (JavaScript numbers) are modelled as rationals, instants as
  integer epoch milliseconds.
-/

namespace FoodFirst

/-! ## Entity types (types.ts) -/

inductive Category where
  | vegetables
  | fruits
  | dairy
  | meat
  | fish
  | others
deriving DecidableEq

inductive ShelfLifeUnit where
  | day
  | month
  | year
deriving DecidableEq

inductive QuantityUnit where
  | g
  | ml
  | pcs
deriving DecidableEq

inductive IngredientStatus where
  | active
  | consumed
  | discarded
deriving DecidableEq

inductive ConsumptionReason where
  | cooking
  | reminder
  | discard
  | other
deriving DecidableEq

inductive DailyActivityStatus where
  | cooked
  | notAtHome
  | skipped
deriving DecidableEq

/-! ## Calendar arithmetic (index.tsx, addTime / getRemainingDays)

A calendar date, as the year/month/day components a JavaScript Date exposes.
Months are 1 to 12 here (JavaScript getMonth is 0-based; the shift is
accounted for in addMonths). ISO date strings of the source are represented
by the date they denote, at UTC midnight. -/

structure CalDate where
  year : Int
  month : Int
  day : Int
deriving DecidableEq

/-- Gregorian leap-year rule, as used by the JavaScript Date object. -/
def isLeap (y : Int) : Bool :=
  (y % 4 == 0 && y % 100 != 0) || (y % 400 == 0)

/-- Number of days of month m in year y (m between 1 and 12). -/
def daysInMonth (y m : Int) : Int :=
  if m = 2 then (if isLeap y then 29 else 28)
  else if m = 4 ∨ m = 6 ∨ m = 9 ∨ m = 11 then 30
  else 31

/-- Day-of-month overflow normalization of the JavaScript MakeDay operation,
for a month index already in 1..12 and a day that came from a valid date
(hence at most 31): an overflowing day rolls forward into the following
month by the excess. -/
def monthCarry (y m d : Int) : CalDate :=
  if d > daysInMonth y m then
    if m = 12 then ⟨y + 1, 1, d - daysInMonth y m⟩
    else ⟨y, m + 1, d - daysInMonth y m⟩
  else ⟨y, m, d⟩

/-- Model of d.setMonth(d.getMonth() + v): the month index is advanced with
year carry (floor division), the day-of-month is kept and normalized by
overflow into the following month. -/
def addMonths (dt : CalDate) (v : Int) : CalDate :=
  let t := dt.month - 1 + v
  monthCarry (dt.year + t.fdiv 12) (t.fmod 12 + 1) dt.day

/-- Model of d.setFullYear(d.getFullYear() + v): same month and day in the
target year, day overflow normalized (Feb 29 in a non-leap year becomes
Mar 1). -/
def addYears (dt : CalDate) (v : Int) : CalDate :=
  monthCarry (dt.year + v) dt.month dt.day

/-- Days since 1970-01-01 of a calendar date (proleptic Gregorian),
matching the JavaScript MakeDay/Day computation. -/
def daysFromCivil (dt : CalDate) : Int :=
  let y := if dt.month ≤ 2 then dt.year - 1 else dt.year
  let era := y.fdiv 400
  let yoe := y - era * 400
  let mp := if dt.month > 2 then dt.month - 3 else dt.month + 9
  let doy := (153 * mp + 2).fdiv 5 + dt.day - 1
  let doe := yoe * 365 + yoe.fdiv 4 - yoe.fdiv 100 + doy
  era * 146097 + doe - 719468

/-- Calendar date of a day count since 1970-01-01 (inverse of
daysFromCivil). -/
def civilFromDays (z0 : Int) : CalDate :=
  let z := z0 + 719468
  let era := z.fdiv 146097
  let doe := z - era * 146097
  let yoe := (doe - doe.fdiv 1460 + doe.fdiv 36524 - doe.fdiv 146096).fdiv 365
  let y := yoe + era * 400
  let doy := doe - (365 * yoe + yoe.fdiv 4 - yoe.fdiv 100)
  let mp := (5 * doy + 2).fdiv 153
  let d := doy - (153 * mp + 2).fdiv 5 + 1
  let m := if mp < 10 then mp + 3 else mp - 9
  ⟨if m ≤ 2 then y + 1 else y, m, d⟩

/-- Model of d.setDate(d.getDate() + v). -/
def addDays (dt : CalDate) (v : Int) : CalDate :=
  civilFromDays (daysFromCivil dt + v)

/-- addTime (index.tsx lines 41-47): branch on the unit and delegate to the
corresponding JavaScript Date mutator. -/
def addTime (dt : CalDate) (value : Int) (unit : ShelfLifeUnit) : CalDate :=
  match unit with
  | ShelfLifeUnit.day => addDays dt value
  | ShelfLifeUnit.month => addMonths dt value
  | ShelfLifeUnit.year => addYears dt value

/-- Integer ceiling division for a positive divisor, as Math.ceil of the
real quotient. -/
def ceilDivInt (a b : Int) : Int :=
  -(Int.fdiv (-a) b)

def msPerDay : Int := 86400000

/-- Epoch milliseconds of a date at UTC midnight (what new Date(iso).getTime()
yields for a date-only ISO string). -/
def msOfDate (dt : CalDate) : Int := daysFromCivil dt * msPerDay

/-- getRemainingDays (index.tsx lines 49-52): Math.ceil of the millisecond
difference between the expiry instant and now, divided by one day. -/
def getRemainingDays (nowMs : Int) (expiry : CalDate) : Int :=
  ceilDivInt (msOfDate expiry - nowMs) msPerDay

/-! ## App state and handlers (index.tsx, App component) -/

/-- Ingredient (types.ts lines 28-42). ISO date strings are represented by
the calendar date they denote; createdAt is an epoch-millisecond instant;
quantities are rationals. -/
structure Ingredient where
  id : String
  userId : String
  name : String
  category : Category
  productionDate : CalDate
  shelfLifeValue : Int
  shelfLifeUnit : ShelfLifeUnit
  expiryDate : CalDate
  initialQuantity : ℚ
  currentQuantity : ℚ
  quantityUnit : QuantityUnit
  status : IngredientStatus
  createdAt : Int
deriving DecidableEq

/-- ConsumptionRecord (types.ts lines 44-52). -/
structure ConsumptionRecord where
  id : String
  ingredientId : String
  userId : String
  consumedQuantity : ℚ
  quantityUnit : QuantityUnit
  consumedAt : Int
  reason : ConsumptionReason
deriving DecidableEq

/-- DailyStatus (types.ts lines 60-65); date is the YYYY-MM-DD day string. -/
structure DailyStatus where
  id : String
  userId : String
  date : String
  status : DailyActivityStatus
deriving DecidableEq

/-- The three user-scoped collections of the App component, plus the acting
user id. -/
structure AppState where
  currentUserId : String
  ingredients : List Ingredient
  consumptions : List ConsumptionRecord
  dailyStatuses : List DailyStatus
deriving DecidableEq

/-- The fields of the Omit argument of handleAddIngredient (everything of
Ingredient except id, userId, createdAt, status). -/
structure NewIngredientInput where
  name : String
  category : Category
  productionDate : CalDate
  shelfLifeValue : Int
  shelfLifeUnit : ShelfLifeUnit
  expiryDate : CalDate
  initialQuantity : ℚ
  currentQuantity : ℚ
  quantityUnit : QuantityUnit
deriving DecidableEq

/-- handleAddIngredient (index.tsx lines 124-135): fill in a fresh id, the
acting user, the creation instant and status active, and prepend to the
ingredient list. -/
def handleAddIngredient (newId : String) (now : Int) (inp : NewIngredientInput)
    (s : AppState) : AppState :=
  { s with ingredients :=
      { id := newId
        userId := s.currentUserId
        name := inp.name
        category := inp.category
        productionDate := inp.productionDate
        shelfLifeValue := inp.shelfLifeValue
        shelfLifeUnit := inp.shelfLifeUnit
        expiryDate := inp.expiryDate
        initialQuantity := inp.initialQuantity
        currentQuantity := inp.currentQuantity
        quantityUnit := inp.quantityUnit
        status := IngredientStatus.active
        createdAt := now } :: s.ingredients }

/-- handleConsume (index.tsx lines 137-172). The lookup is by id only; when
it fails the handler returns with no change. Otherwise the matching entries
get currentQuantity = max 0 (current - quantity) and a status recomputed
from it, one ConsumptionRecord carrying the requested quantity is
prepended, and a cooked DailyStatus for today is appended when none exists.
recId and stId are the two fresh ids the source draws from
crypto.randomUUID, now the current instant, todayStr the current day
string. -/
def handleConsume (recId stId : String) (now : Int) (todayStr : String)
    (ingredientId : String) (quantity : ℚ) (reason : ConsumptionReason)
    (s : AppState) : AppState :=
  match s.ingredients.find? (fun i => decide (i.id = ingredientId)) with
  | none => s
  | some ingredient =>
    let newQuantity := max 0 (ingredient.currentQuantity - quantity)
    let newStatus := if newQuantity ≤ 0 then IngredientStatus.consumed
      else IngredientStatus.active
    { currentUserId := s.currentUserId
      ingredients := s.ingredients.map (fun i =>
        if i.id = ingredientId then
          { i with currentQuantity := newQuantity, status := newStatus }
        else i)
      consumptions :=
        { id := recId
          ingredientId := ingredientId
          userId := s.currentUserId
          consumedQuantity := quantity
          quantityUnit := ingredient.quantityUnit
          consumedAt := now
          reason := reason } :: s.consumptions
      dailyStatuses :=
        match s.dailyStatuses.find? (fun d => decide (d.date = todayStr)) with
        | some _ => s.dailyStatuses
        | none => s.dailyStatuses ++
            [{ id := stId
               userId := s.currentUserId
               date := todayStr
               status := DailyActivityStatus.cooked }] }

/-- handleDailyStatusUpdate (index.tsx lines 174-186): upsert of the record
for today, keyed on the day string. -/
def handleDailyStatusUpdate (stId : String) (todayStr : String)
    (status : DailyActivityStatus) (s : AppState) : AppState :=
  match s.dailyStatuses.find? (fun d => decide (d.date = todayStr)) with
  | some _ =>
    { s with dailyStatuses := s.dailyStatuses.map (fun d =>
        if d.date = todayStr then { d with status := status } else d) }
  | none =>
    { s with dailyStatuses := s.dailyStatuses ++
        [{ id := stId
           userId := s.currentUserId
           date := todayStr
           status := status }] }

/-- submit of AddEditModal (index.tsx lines 422-436): a no-op when the name
is empty, otherwise computes the expiry date with addTime and calls
handleAddIngredient with currentQuantity equal to the entered quantity. -/
def submit (newId : String) (now : Int) (name : String) (category : Category)
    (prodDate : CalDate) (lifeVal : Int) (lifeUnit : ShelfLifeUnit)
    (qty : ℚ) (unit : QuantityUnit) (s : AppState) : AppState :=
  if name = "" then s
  else handleAddIngredient newId now
    { name := name
      category := category
      productionDate := prodDate
      shelfLifeValue := lifeVal
      shelfLifeUnit := lifeUnit
      expiryDate := addTime prodDate lifeVal lifeUnit
      initialQuantity := qty
      currentQuantity := qty
      quantityUnit := unit } s

/-! ## Stats and risk list (index.tsx, stats memo and HomeView) -/

/-- The active filter of the stats memo (index.tsx line 96). -/
def activeIngredients (l : List Ingredient) : List Ingredient :=
  l.filter (fun i => decide (i.status = IngredientStatus.active))

/-- expiringSoonCount of the stats memo (index.tsx lines 99-102): active
ingredients whose remaining days lie between 0 and 3 inclusive. -/
def expiringSoonCount (nowMs : Int) (l : List Ingredient) : Nat :=
  ((activeIngredients l).filter (fun i =>
    decide (0 ≤ getRemainingDays nowMs i.expiryDate ∧
      getRemainingDays nowMs i.expiryDate ≤ 3))).length

/-- expiredCount of the stats memo (index.tsx line 104): active ingredients
with negative remaining days. -/
def expiredCount (nowMs : Int) (l : List Ingredient) : Nat :=
  ((activeIngredients l).filter (fun i =>
    decide (getRemainingDays nowMs i.expiryDate < 0))).length

/-- The risk list of HomeView (index.tsx lines 270-275): active ingredients
with remaining days at most 3. -/
def riskList (nowMs : Int) (l : List Ingredient) : List Ingredient :=
  l.filter (fun i =>
    decide (i.status = IngredientStatus.active) &&
    decide (getRemainingDays nowMs i.expiryDate ≤ 3))

/-! ## Consume-call sequences (for the monotonicity claim) -/

/-- The arguments of one handleConsume invocation. -/
structure ConsumeCall where
  recId : String
  stId : String
  now : Int
  todayStr : String
  ingredientId : String
  quantity : ℚ
  reason : ConsumptionReason
deriving DecidableEq

def applyCall (c : ConsumeCall) (s : AppState) : AppState :=
  handleConsume c.recId c.stId c.now c.todayStr c.ingredientId c.quantity
    c.reason s

def runConsumes (calls : List ConsumeCall) (s : AppState) : AppState :=
  calls.foldl (fun st c => applyCall c st) s

/-! ## Label extraction merge (AddEditModal handleOCR and geminiService)

The TypeScript draft state is typed Category / ShelfLifeUnit, but the
values merged from the extractor are cast with a plain type assertion,
which is erased at runtime; the runtime values are whatever strings the
extractor returned. The merge is therefore modelled on string-typed form
fields. -/

/-- ExtractedFoodInfo (geminiService.ts lines 4-10). -/
structure ExtractedFoodInfo where
  name : String
  category : String
  productionDate : Option String
  shelfLifeValue : Option Int
  shelfLifeUnit : Option String
deriving DecidableEq

/-- The form fields of AddEditModal touched by handleOCR, at their runtime
(string) types. -/
structure DraftForm where
  name : String
  category : String
  prodDate : String
  lifeVal : Int
  lifeUnit : String
deriving DecidableEq

/-- The string values of the fixed Category enumeration (types.ts line 1). -/
def categoryStrings : List String :=
  ["vegetables", "fruits", "dairy", "meat", "fish", "others"]

/-- The merge step of handleOCR (index.tsx lines 409-416): a none result
(the extractor swallows every failure and resolves to null) leaves the form
unchanged; a some result is merged field by field with JavaScript
truthiness fallbacks (empty string and zero keep the previous value,
missing optional fields keep the previous value). The category string is
used as returned, with no check against the category enumeration. -/
def mergeOCR (info : Option ExtractedFoodInfo) (f : DraftForm) : DraftForm :=
  match info with
  | none => f
  | some i =>
    { name := if i.name = "" then f.name else i.name
      category := if i.category = "" then f.category else i.category
      prodDate := match i.productionDate with
        | some p => if p = "" then f.prodDate else p
        | none => f.prodDate
      lifeVal := match i.shelfLifeValue with
        | some v => if v = 0 then f.lifeVal else v
        | none => f.lifeVal
      lifeUnit := match i.shelfLifeUnit with
        | some u => if u = "" then f.lifeUnit else u
        | none => f.lifeUnit }

/-! ## Keyword auto-classification (constants.tsx and AddEditModal) -/

/-- Substring test on character lists: does the first list start with the
second. -/
def listStartsWith : List Char → List Char → Bool
  | _, [] => true
  | [], _ :: _ => false
  | a :: as, b :: bs => a == b && listStartsWith as bs

/-- Substring containment on character lists, at any position. -/
def listContainsSub : List Char → List Char → Bool
  | [], needle => needle.isEmpty
  | a :: t, needle => listStartsWith (a :: t) needle || listContainsSub t needle

/-- JavaScript String.prototype.includes. -/
def strIncludes (hay needle : String) : Bool :=
  listContainsSub hay.toList needle.toList

/-- CATEGORY_KEYWORDS (constants.tsx lines 23-30), in the object insertion
order that Object.entries iterates. -/
def CATEGORY_KEYWORDS : List (Category × List String) :=
  [(Category.vegetables,
    ["菜", "茄", "椒", "薯", "瓜", "豆", "菇", "笋", "萝卜", "葱", "蒜", "姜",
     "芹", "兰"]),
   (Category.fruits,
    ["果", "莓", "桃", "柑", "橘", "橙", "蕉", "梨", "枣", "瓜", "西瓜",
     "哈密瓜", "榴莲", "芒果"]),
   (Category.dairy, ["奶", "酪", "乳", "蛋", "奶油", "芝士", "黄油"]),
   (Category.meat,
    ["肉", "肠", "翅", "腿", "腹", "肝", "心", "培根", "火腿", "排骨"]),
   (Category.fish,
    ["鱼", "虾", "蟹", "蚝", "蚬", "鱿", "鲍", "螺", "鳕", "鳗"]),
   (Category.others, [])]

/-- Does some keyword of the table entry occur in the name. -/
def matchesCat (name : String) (p : Category × List String) : Bool :=
  p.2.any (fun k => strIncludes name k)

/-- The auto-classification effect of AddEditModal (index.tsx lines
389-399): a no-op when the name is empty or the manual-selection latch is
set; otherwise the first table entry with a keyword occurring in the name
gives the new category, and with no match the current category is kept. -/
def classifyEffect (name : String) (latch : Bool) (current : Category) :
    Category :=
  if name = "" ∨ latch = true then current
  else match CATEGORY_KEYWORDS.find? (fun p => matchesCat name p) with
    | some p => p.1
    | none => current

/-! ## Sample entities for concrete instantiations -/

/-- An active sample ingredient with 50 g left out of 500. -/
def ingA : Ingredient :=
  { id := "a"
    userId := "user_1"
    name := "牛奶"
    category := Category.dairy
    productionDate := ⟨2024, 6, 1⟩
    shelfLifeValue := 7
    shelfLifeUnit := ShelfLifeUnit.day
    expiryDate := ⟨2024, 6, 8⟩
    initialQuantity := 500
    currentQuantity := 50
    quantityUnit := QuantityUnit.g
    status := IngredientStatus.active
    createdAt := 0 }

/-- A fully consumed sample ingredient. -/
def ingC : Ingredient :=
  { id := "c"
    userId := "user_1"
    name := "鸡蛋"
    category := Category.dairy
    productionDate := ⟨2024, 6, 1⟩
    shelfLifeValue := 30
    shelfLifeUnit := ShelfLifeUnit.day
    expiryDate := ⟨2024, 7, 1⟩
    initialQuantity := 10
    currentQuantity := 0
    quantityUnit := QuantityUnit.pcs
    status := IngredientStatus.consumed
    createdAt := 0 }

/-- A sample daily status set explicitly by the user. -/
def dsA : DailyStatus :=
  { id := "s1"
    userId := "user_1"
    date := "2024-06-01"
    status := DailyActivityStatus.skipped }

def emptyState : AppState :=
  { currentUserId := "user_1"
    ingredients := []
    consumptions := []
    dailyStatuses := [] }

/-- State holding only the active sample ingredient. -/
def stA : AppState :=
  { currentUserId := "user_1"
    ingredients := [ingA]
    consumptions := []
    dailyStatuses := [] }

/-- State holding only the consumed sample ingredient. -/
def stC : AppState :=
  { currentUserId := "user_1"
    ingredients := [ingC]
    consumptions := []
    dailyStatuses := [] }

/-- State with an explicitly set daily status for 2024-06-01. -/
def stD : AppState :=
  { currentUserId := "user_1"
    ingredients := [ingA]
    consumptions := []
    dailyStatuses := [dsA] }

/-! ## Helper lemmas -/

/-- A pointwise property of a map gives a Forall₂ between the mapped list
and the original. -/
lemma forall₂_map_left_self {α β : Type} {R : β → α → Prop} {f : α → β}
    {l : List α} (h : ∀ x ∈ l, R (f x) x) : List.Forall₂ R (l.map f) l := by
  induction l with
  | nil => exact List.Forall₂.nil
  | cons a t ih =>
    exact List.Forall₂.cons (h a (by simp))
      (ih (fun x hx => h x (List.mem_cons_of_mem a hx)))

/-- Forall₂ composes along a transitive relation. -/
lemma forall₂_comp_trans {α : Type} {R : α → α → Prop}
    (hR : ∀ a b c, R a b → R b c → R a c) :
    ∀ {l₁ l₂ l₃ : List α}, List.Forall₂ R l₁ l₂ → List.Forall₂ R l₂ l₃ →
      List.Forall₂ R l₁ l₃ := by
  intro l₁ l₂ l₃ h1
  induction h1 generalizing l₃ with
  | nil => intro h2; cases h2; exact List.Forall₂.nil
  | cons hab _ ih =>
    intro h2
    cases h2 with
    | cons hbc h2t => exact List.Forall₂.cons (hR _ _ _ hab hbc) (ih h2t)

/-- find? characterization by the index of the first satisfying element. -/
lemma find?_at_first_index {α : Type} (p : α → Bool) (l : List α) :
    ∀ (k : Nat) (hk : k < l.length),
      p (l.get ⟨k, hk⟩) = true →
      (∀ (j : Nat) (hj : j < l.length), j < k → p (l.get ⟨j, hj⟩) = false) →
      l.find? p = some (l.get ⟨k, hk⟩) := by
  induction l with
  | nil => intro k hk; exact absurd hk (by simp)
  | cons a t ih =>
    intro k hk hp hearly
    cases k with
    | zero =>
      simp only [List.get] at hp ⊢
      simp [List.find?, hp]
    | succ k =>
      have ha : p a = false := hearly 0 (by simp) (Nat.succ_pos k)
      have ht := ih k (by simpa using hk) (by simpa using hp)
        (fun j hj hjk => by
          simpa using hearly (j + 1) (by simpa using hj) (by omega))
      simp only [List.get]
      simp [List.find?, ha, ht]

/-- Appending a record for a day not yet present keeps the day strings
distinct. -/
lemma nodup_dates_append_today {l : List DailyStatus} {todayStr : String}
    (hn : (l.map (fun d => d.date)).Nodup)
    (hnone : l.find? (fun d => decide (d.date = todayStr)) = none)
    (x : DailyStatus) (hx : x.date = todayStr) :
    ((l ++ [x]).map (fun d => d.date)).Nodup := by
  have htoday : ∀ d ∈ l, d.date ≠ todayStr := by
    intro d hd
    have := List.find?_eq_none.mp hnone d hd
    simpa using this
  rw [List.map_append, List.nodup_append]
  refine ⟨hn, by simp, ?_⟩
  intro a ha hb
  have hb2 : a = x.date := by simpa using hb
  rcases List.mem_map.mp ha with ⟨d, hd, rfl⟩
  exact htoday d hd (by rw [hb2, hx])

/-- One handleConsume call never changes the id column of the ingredient
list. -/
lemma consume_ids_preserved (c : ConsumeCall) (s : AppState) :
    (applyCall c s).ingredients.map (fun i => i.id) =
      s.ingredients.map (fun i => i.id) := by
  rcases hfind : s.ingredients.find? (fun i => decide (i.id = c.ingredientId))
    with _ | ing
  · simp only [applyCall, handleConsume, hfind]
  · simp only [applyCall, handleConsume, hfind]
    rw [List.map_map]
    congr 1
    funext i
    by_cases hid : i.id = c.ingredientId
    · simp [hid]
    · simp [hid]

/-- One handleConsume call with a nonnegative quantity, on a list with
distinct ids, relates every resulting entry to the original one: same id,
same initialQuantity, and a currentQuantity that stays nonnegative and
does not increase (and stays below initialQuantity) whenever the original
was nonnegative. -/
lemma consume_step_rel (c : ConsumeCall) (s : AppState) (hq : 0 ≤ c.quantity)
    (hnd : (s.ingredients.map (fun i => i.id)).Nodup) :
    List.Forall₂ (fun i' i =>
        i'.id = i.id ∧ i'.initialQuantity = i.initialQuantity ∧
        (0 ≤ i.currentQuantity →
          0 ≤ i'.currentQuantity ∧ i'.currentQuantity ≤ i.currentQuantity) ∧
        (0 ≤ i.currentQuantity ∧ i.currentQuantity ≤ i.initialQuantity →
          i'.currentQuantity ≤ i'.initialQuantity))
      (applyCall c s).ingredients s.ingredients := by
  rcases hfind : s.ingredients.find? (fun i => decide (i.id = c.ingredientId))
    with _ | ing
  · simp only [applyCall, handleConsume, hfind]
    exact List.forall₂_same.mpr
      (fun x hx => ⟨rfl, rfl, fun h => ⟨h, le_refl _⟩, fun h => h.2⟩)
  · simp only [applyCall, handleConsume, hfind]
    apply forall₂_map_left_self
    intro x hx
    by_cases hid : x.id = c.ingredientId
    · have hmem := List.mem_of_find?_eq_some hfind
      have hpred := List.find?_some hfind
      have hiid : ing.id = c.ingredientId := by simpa using hpred
      have hxeq : x = ing :=
        List.inj_on_of_nodup_map hnd hx hmem (by rw [hid, hiid])
      subst hxeq
      simp only [hid, if_pos rfl]
      refine ⟨rfl, rfl, ?_, ?_⟩
      · intro h0
        exact ⟨le_max_left _ _, max_le h0 (by linarith)⟩
      · intro h
        calc max 0 (x.currentQuantity - c.quantity) ≤ x.currentQuantity :=
              max_le h.1 (by linarith)
          _ ≤ x.initialQuantity := h.2
    · simp [hid]

/-! ## Theorems -/

/-- C2, counterexample: the claim says month addition clamps an overflowing
day-of-month to the last valid day of the target month, so that
Jan 31 2024 + 1 month would be Feb 29 2024. The code (JavaScript setMonth)
instead rolls the overflow into March: the result is Mar 2 2024, whose
month is not February. -/
theorem addTime_jan31_overflow_cex :
    addTime ⟨2024, 1, 31⟩ 1 ShelfLifeUnit.month = ⟨2024, 3, 2⟩ ∧
    addTime ⟨2024, 1, 31⟩ 1 ShelfLifeUnit.month ≠ ⟨2024, 2, 29⟩ := by
  decide

/-- C2, amended: month and year addition keep the day-of-month and roll an
overflow past the end of the target month forward into the following month
by the excess days, rather than clamping to the last valid day: for every
year y, Jan 31 of y plus 1 month is Mar 2 of y in a leap year and Mar 3
otherwise (never Feb 28 or Feb 29); likewise Feb 29 2024 plus 1 year is
Mar 1 2025. -/
theorem addTime_month_year_rollover_overflow :
    (∀ y : Int, addTime ⟨y, 1, 31⟩ 1 ShelfLifeUnit.month =
      if isLeap y then (⟨y, 3, 2⟩ : CalDate) else ⟨y, 3, 3⟩) ∧
    addTime ⟨2024, 2, 29⟩ 1 ShelfLifeUnit.year = ⟨2025, 3, 1⟩ := by
  constructor
  · intro y
    have h1 : ((1 : Int) - 1 + 1).fdiv 12 = 0 := by decide
    have h2 : ((1 : Int) - 1 + 1).fmod 12 + 1 = 2 := by decide
    simp only [addTime, addMonths, h1, h2, monthCarry, daysInMonth]
    cases h : isLeap y <;> simp [h]
  · decide


/-- C1, counterexample: consuming 999 from an ingredient holding 50 appends
a ConsumptionRecord whose consumedQuantity is the raw 999, which is neither
the clamped min(999, 50) = 50 nor at most the current quantity 50. -/
theorem consume_record_raw_quantity_cex :
    ((handleConsume "r1" "d1" 0 "2024-06-01" "a" 999 ConsumptionReason.cooking
        stA).consumptions.map (fun r => r.consumedQuantity)) = [999] ∧
    ¬ ((999 : ℚ) ≤ ingA.currentQuantity) ∧ (999 : ℚ) ≠ 50 := by
  decide

/-- C1, amended: the decrement applied to currentQuantity is clamped, the
new value being current - min(quantity, current) = max(0, current -
quantity), but the single appended ConsumptionRecord carries the requested
quantity unchanged, which may exceed the current quantity and is not forced
positive. -/
theorem consume_clamps_state_but_records_raw_quantity
    (recId stId : String) (now : Int) (todayStr : String)
    (ingredientId : String) (quantity : ℚ) (reason : ConsumptionReason)
    (s : AppState) (ing : Ingredient)
    (hfind : s.ingredients.find? (fun i => decide (i.id = ingredientId)) =
      some ing) :
    (handleConsume recId stId now todayStr ingredientId quantity reason
        s).consumptions =
      { id := recId
        ingredientId := ingredientId
        userId := s.currentUserId
        consumedQuantity := quantity
        quantityUnit := ing.quantityUnit
        consumedAt := now
        reason := reason } :: s.consumptions ∧
    List.Forall₂ (fun i' i => i.id = ingredientId →
        i'.currentQuantity =
          ing.currentQuantity - min quantity ing.currentQuantity)
      (handleConsume recId stId now todayStr ingredientId quantity reason
        s).ingredients
      s.ingredients := by
  constructor
  · simp only [handleConsume, hfind]
  · simp only [handleConsume, hfind]
    apply forall₂_map_left_self
    intro x hx hid
    simp only [hid, if_true, if_pos rfl]
    rcases le_total quantity ing.currentQuantity with h | h
    · rw [min_eq_left h, max_eq_right (by linarith)]
    · rw [min_eq_right h, max_eq_left (by linarith)]
      ring

/-- C1, witness for the amended theorem, at the sample state. -/
theorem consume_clamps_state_but_records_raw_quantity_w :
    (handleConsume "r1" "d1" 0 "2024-06-01" "a" 999 ConsumptionReason.cooking
        stA).consumptions =
      { id := "r1"
        ingredientId := "a"
        userId := stA.currentUserId
        consumedQuantity := 999
        quantityUnit := ingA.quantityUnit
        consumedAt := 0
        reason := ConsumptionReason.cooking } :: stA.consumptions ∧
    List.Forall₂ (fun i' i => i.id = "a" →
        i'.currentQuantity = ingA.currentQuantity - min 999 ingA.currentQuantity)
      (handleConsume "r1" "d1" 0 "2024-06-01" "a" 999 ConsumptionReason.cooking
        stA).ingredients
      stA.ingredients :=
  consume_clamps_state_but_records_raw_quantity "r1" "d1" 0 "2024-06-01" "a"
    999 ConsumptionReason.cooking stA ingA (by decide)

/-- C3, counterexample: the lookup of handleConsume matches on id only, so
an ingredient whose status is already consumed is still found: a further
consume call on it appends a ConsumptionRecord instead of failing with no
state change. -/
theorem consume_consumed_ingredient_appends_record_cex :
    ingC.status = IngredientStatus.consumed ∧
    (handleConsume "r1" "d1" 0 "2024-06-01" "c" 5 ConsumptionReason.cooking
        stC).consumptions.length = 1 := by
  decide

/-- C3, amended: when no ingredient with the given id exists the call
silently returns with no state change (no error value exists in the code);
the lookup ignores status, so once an ingredient is consumed a further
consume call targeting it still proceeds and appends one
ConsumptionRecord. -/
theorem consume_notfound_noop_and_consumed_retarget :
    (∀ (recId stId : String) (now : Int) (todayStr iid : String) (q : ℚ)
        (reason : ConsumptionReason) (s : AppState),
      s.ingredients.find? (fun i => decide (i.id = iid)) = none →
      handleConsume recId stId now todayStr iid q reason s = s) ∧
    (∀ (recId stId : String) (now : Int) (todayStr iid : String) (q : ℚ)
        (reason : ConsumptionReason) (s : AppState) (ing : Ingredient),
      s.ingredients.find? (fun i => decide (i.id = iid)) = some ing →
      ing.status = IngredientStatus.consumed →
      (handleConsume recId stId now todayStr iid q reason s).consumptions =
        { id := recId
          ingredientId := iid
          userId := s.currentUserId
          consumedQuantity := q
          quantityUnit := ing.quantityUnit
          consumedAt := now
          reason := reason } :: s.consumptions) := by
  constructor
  · intro recId stId now todayStr iid q reason s h
    simp only [handleConsume, h]
  · intro recId stId now todayStr iid q reason s ing h hc
    simp only [handleConsume, h]

/-- C3, witness for the amended theorem. -/
theorem consume_notfound_noop_and_consumed_retarget_w :
    handleConsume "r1" "d1" 0 "2024-06-01" "zzz" 5 ConsumptionReason.cooking
      stA = stA ∧
    (handleConsume "r1" "d1" 0 "2024-06-01" "c" 5 ConsumptionReason.cooking
        stC).consumptions =
      { id := "r1"
        ingredientId := "c"
        userId := stC.currentUserId
        consumedQuantity := 5
        quantityUnit := ingC.quantityUnit
        consumedAt := 0
        reason := ConsumptionReason.cooking } :: stC.consumptions :=
  ⟨consume_notfound_noop_and_consumed_retarget.1 "r1" "d1" 0 "2024-06-01"
      "zzz" 5 ConsumptionReason.cooking stA (by decide),
   consume_notfound_noop_and_consumed_retarget.2 "r1" "d1" 0 "2024-06-01"
      "c" 5 ConsumptionReason.cooking stC ingC (by decide) (by decide)⟩

/-- C4, counterexample: submit with shelfLifeValue = -5 and
initialQuantity = 0 (both non-positive) still adds the ingredient to the
collection, with initialQuantity 0 and status active; no validation error
exists. -/
theorem submit_accepts_nonpositive_inputs_cex :
    (submit "n1" 0 "奶酪" Category.dairy ⟨2024, 6, 1⟩ (-5) ShelfLifeUnit.day 0
        QuantityUnit.g emptyState).ingredients.length = 1 ∧
    ((submit "n1" 0 "奶酪" Category.dairy ⟨2024, 6, 1⟩ (-5) ShelfLifeUnit.day 0
        QuantityUnit.g emptyState).ingredients.map
      (fun i => i.initialQuantity)) = [0] := by
  decide

/-- C4, amended: submit validates only that the name is non-empty (with an
empty name it is a silent no-op); shelfLifeValue and initialQuantity are
not validated, and for any non-empty name the ingredient is prepended with
currentQuantity = initialQuantity = the entered quantity and status =
active, regardless of the signs of the numeric inputs. -/
theorem submit_validates_only_name :
    (∀ (newId : String) (now : Int) (category : Category) (prodDate : CalDate)
        (lifeVal : Int) (lifeUnit : ShelfLifeUnit) (qty : ℚ)
        (unit : QuantityUnit) (s : AppState),
      submit newId now "" category prodDate lifeVal lifeUnit qty unit s = s) ∧
    (∀ (newId : String) (now : Int) (name : String) (category : Category)
        (prodDate : CalDate) (lifeVal : Int) (lifeUnit : ShelfLifeUnit)
        (qty : ℚ) (unit : QuantityUnit) (s : AppState),
      name ≠ "" →
      (submit newId now name category prodDate lifeVal lifeUnit qty unit
          s).ingredients =
        { id := newId
          userId := s.currentUserId
          name := name
          category := category
          productionDate := prodDate
          shelfLifeValue := lifeVal
          shelfLifeUnit := lifeUnit
          expiryDate := addTime prodDate lifeVal lifeUnit
          initialQuantity := qty
          currentQuantity := qty
          quantityUnit := unit
          status := IngredientStatus.active
          createdAt := now } :: s.ingredients) := by
  constructor
  · intro newId now category prodDate lifeVal lifeUnit qty unit s
    simp [submit]
  · intro newId now name category prodDate lifeVal lifeUnit qty unit s h
    simp [submit, h, handleAddIngredient]

/-- C4, witness for the amended theorem. -/
theorem submit_validates_only_name_w :
    submit "n1" 0 "" Category.dairy ⟨2024, 6, 1⟩ 7 ShelfLifeUnit.day 500
      QuantityUnit.g emptyState = emptyState ∧
    (submit "n1" 0 "牛奶" Category.dairy ⟨2024, 6, 1⟩ 7 ShelfLifeUnit.day 500
        QuantityUnit.g emptyState).ingredients =
      { id := "n1"
        userId := emptyState.currentUserId
        name := "牛奶"
        category := Category.dairy
        productionDate := ⟨2024, 6, 1⟩
        shelfLifeValue := 7
        shelfLifeUnit := ShelfLifeUnit.day
        expiryDate := addTime ⟨2024, 6, 1⟩ 7 ShelfLifeUnit.day
        initialQuantity := 500
        currentQuantity := 500
        quantityUnit := QuantityUnit.g
        status := IngredientStatus.active
        createdAt := 0 } :: emptyState.ingredients :=
  ⟨submit_validates_only_name.1 "n1" 0 Category.dairy ⟨2024, 6, 1⟩ 7
      ShelfLifeUnit.day 500 QuantityUnit.g emptyState,
   submit_validates_only_name.2 "n1" 0 "牛奶" Category.dairy ⟨2024, 6, 1⟩ 7
      ShelfLifeUnit.day 500 QuantityUnit.g emptyState (by decide)⟩

/-- C10: a consume call that finds its target changes no ingredient whose
id differs from the target, and on every entry (the target included) the
fields id, userId, name, category, productionDate, shelfLifeValue,
shelfLifeUnit, expiryDate, initialQuantity, quantityUnit and createdAt are
left unchanged; positions and length of the collection are preserved. -/
theorem consume_frame_effect
    (recId stId : String) (now : Int) (todayStr iid : String) (q : ℚ)
    (reason : ConsumptionReason) (s : AppState) (ing : Ingredient)
    (hfind : s.ingredients.find? (fun i => decide (i.id = iid)) = some ing) :
    List.Forall₂ (fun i' i =>
        (i.id ≠ iid → i' = i) ∧
        i'.id = i.id ∧ i'.userId = i.userId ∧ i'.name = i.name ∧
        i'.category = i.category ∧ i'.productionDate = i.productionDate ∧
        i'.shelfLifeValue = i.shelfLifeValue ∧
        i'.shelfLifeUnit = i.shelfLifeUnit ∧ i'.expiryDate = i.expiryDate ∧
        i'.initialQuantity = i.initialQuantity ∧
        i'.quantityUnit = i.quantityUnit ∧ i'.createdAt = i.createdAt)
      (handleConsume recId stId now todayStr iid q reason s).ingredients
      s.ingredients := by
  simp only [handleConsume, hfind]
  apply forall₂_map_left_self
  intro x hx
  by_cases hid : x.id = iid
  · simp [hid]
  · simp [hid]

/-- C10, witness at the sample state. -/
theorem consume_frame_effect_w :
    List.Forall₂ (fun i' i =>
        (i.id ≠ "a" → i' = i) ∧
        i'.id = i.id ∧ i'.userId = i.userId ∧ i'.name = i.name ∧
        i'.category = i.category ∧ i'.productionDate = i.productionDate ∧
        i'.shelfLifeValue = i.shelfLifeValue ∧
        i'.shelfLifeUnit = i.shelfLifeUnit ∧ i'.expiryDate = i.expiryDate ∧
        i'.initialQuantity = i.initialQuantity ∧
        i'.quantityUnit = i.quantityUnit ∧ i'.createdAt = i.createdAt)
      (handleConsume "r1" "d1" 0 "2024-06-01" "a" 20 ConsumptionReason.cooking
        stA).ingredients
      stA.ingredients :=
  consume_frame_effect "r1" "d1" 0 "2024-06-01" "a" 20
    ConsumptionReason.cooking stA ingA (by decide)

/-- C6: over one ingredient list, the expiringSoon counter counts exactly
the active entries with remaining days between 0 and 3, the expired
counter exactly the active entries with negative remaining days, the two
counting predicates are disjoint, and the risk list of HomeView holds
exactly the active entries with remaining days at most 3, so the two
counts partition it: their sum is its length. -/
theorem stats_risk_counts_partition (nowMs : Int) (l : List Ingredient) :
    (∀ i : Ingredient, i ∈ riskList nowMs l ↔
      (i ∈ l ∧ i.status = IngredientStatus.active ∧
        getRemainingDays nowMs i.expiryDate ≤ 3)) ∧
    (∀ i : Ingredient,
      ¬((0 ≤ getRemainingDays nowMs i.expiryDate ∧
          getRemainingDays nowMs i.expiryDate ≤ 3) ∧
        getRemainingDays nowMs i.expiryDate < 0)) ∧
    expiringSoonCount nowMs l + expiredCount nowMs l =
      (riskList nowMs l).length := by
  refine ⟨?_, ?_, ?_⟩
  · intro i
    simp [riskList, List.mem_filter, and_assoc]
  · intro i
    omega
  · induction l with
    | nil => rfl
    | cons a t ih =>
      by_cases hs : a.status = IngredientStatus.active
      · by_cases h3 : getRemainingDays nowMs a.expiryDate ≤ 3
        · by_cases h0 : 0 ≤ getRemainingDays nowMs a.expiryDate
          · simp only [expiringSoonCount, expiredCount, riskList,
              activeIngredients, List.filter_cons] at ih ⊢
            have hn : ¬ getRemainingDays nowMs a.expiryDate < 0 := by omega
            simp [hs, h3, h0, hn] at ih ⊢
            omega
          · have hneg : getRemainingDays nowMs a.expiryDate < 0 := by omega
            simp only [expiringSoonCount, expiredCount, riskList,
              activeIngredients, List.filter_cons] at ih ⊢
            simp [hs, h3, h0, hneg] at ih ⊢
            omega
        · have h0 : 0 ≤ getRemainingDays nowMs a.expiryDate := by omega
          have hn : ¬ getRemainingDays nowMs a.expiryDate < 0 := by omega
          simp only [expiringSoonCount, expiredCount, riskList,
            activeIngredients, List.filter_cons] at ih ⊢
          simp [hs, h3, h0, hn] at ih ⊢
          omega
      · simp only [expiringSoonCount, expiredCount, riskList,
          activeIngredients, List.filter_cons] at ih ⊢
        simp [hs] at ih ⊢
        omega

/-- C7: the explicit upsert handleDailyStatusUpdate, when a record for
today exists, rewrites the status of that record in place (same length,
same id, userId and date, entries of other days untouched) and never
appends a duplicate, preserving distinctness of the day strings; the
implicit cooked-on-first-consume rule inside handleConsume leaves the
daily records untouched when one exists for today, appends exactly one
cooked record when none exists and the consume found its target, and also
preserves distinctness of the day strings. -/
theorem daily_status_upsert_unique :
    (∀ (stId todayStr : String) (st : DailyActivityStatus) (s : AppState)
        (d0 : DailyStatus),
      s.dailyStatuses.find? (fun d => decide (d.date = todayStr)) = some d0 →
      (handleDailyStatusUpdate stId todayStr st s).dailyStatuses.length =
        s.dailyStatuses.length ∧
      List.Forall₂ (fun d' d =>
          d'.id = d.id ∧ d'.userId = d.userId ∧ d'.date = d.date ∧
          (d.date ≠ todayStr → d' = d) ∧ (d.date = todayStr → d'.status = st))
        (handleDailyStatusUpdate stId todayStr st s).dailyStatuses
        s.dailyStatuses) ∧
    (∀ (stId todayStr : String) (st : DailyActivityStatus) (s : AppState),
      (s.dailyStatuses.map (fun d => d.date)).Nodup →
      ((handleDailyStatusUpdate stId todayStr st s).dailyStatuses.map
        (fun d => d.date)).Nodup) ∧
    (∀ (recId stId : String) (now : Int) (todayStr iid : String) (q : ℚ)
        (reason : ConsumptionReason) (s : AppState) (d0 : DailyStatus),
      s.dailyStatuses.find? (fun d => decide (d.date = todayStr)) = some d0 →
      (handleConsume recId stId now todayStr iid q reason s).dailyStatuses =
        s.dailyStatuses) ∧
    (∀ (recId stId : String) (now : Int) (todayStr iid : String) (q : ℚ)
        (reason : ConsumptionReason) (s : AppState) (ing : Ingredient),
      s.ingredients.find? (fun i => decide (i.id = iid)) = some ing →
      s.dailyStatuses.find? (fun d => decide (d.date = todayStr)) = none →
      (handleConsume recId stId now todayStr iid q reason s).dailyStatuses =
        s.dailyStatuses ++
          [{ id := stId
             userId := s.currentUserId
             date := todayStr
             status := DailyActivityStatus.cooked }]) ∧
    (∀ (recId stId : String) (now : Int) (todayStr iid : String) (q : ℚ)
        (reason : ConsumptionReason) (s : AppState),
      (s.dailyStatuses.map (fun d => d.date)).Nodup →
      ((handleConsume recId stId now todayStr iid q reason s).dailyStatuses.map
        (fun d => d.date)).Nodup) := by
  refine ⟨?_, ?_, ?_, ?_, ?_⟩
  · intro stId todayStr st s d0 hfind
    simp only [handleDailyStatusUpdate, hfind]
    constructor
    · simp
    · apply forall₂_map_left_self
      intro d hd
      by_cases hdt : d.date = todayStr
      · simp [hdt]
      · simp [hdt]
  · intro stId todayStr st s hn
    rcases hfind : s.dailyStatuses.find? (fun d => decide (d.date = todayStr))
      with _ | d0
    · simp only [handleDailyStatusUpdate, hfind]
      exact nodup_dates_append_today hn hfind _ rfl
    · simp only [handleDailyStatusUpdate, hfind]
      rw [List.map_map]
      have : ((fun d => d.date) ∘ fun d =>
          if d.date = todayStr then { d with status := st } else d) =
          fun (d : DailyStatus) => d.date := by
        funext d
        by_cases hdt : d.date = todayStr
        · simp [hdt]
        · simp [hdt]
      rw [this]
      exact hn
  · intro recId stId now todayStr iid q reason s d0 hfind
    rcases hifind : s.ingredients.find? (fun i => decide (i.id = iid))
      with _ | ing
    · simp only [handleConsume, hifind]
    · simp only [handleConsume, hifind, hfind]
  · intro recId stId now todayStr iid q reason s ing hifind hnone
    simp only [handleConsume, hifind, hnone]
  · intro recId stId now todayStr iid q reason s hn
    rcases hifind : s.ingredients.find? (fun i => decide (i.id = iid))
      with _ | ing
    · simp only [handleConsume, hifind]
      exact hn
    · rcases hfind : s.dailyStatuses.find?
        (fun d => decide (d.date = todayStr)) with _ | d0
      · simp only [handleConsume, hifind, hfind]
        exact nodup_dates_append_today hn hfind _ rfl
      · simp only [handleConsume, hifind, hfind]
        exact hn

/-- C7, witness at the sample states (stD holds a user-set record for
2024-06-01; stA holds none). -/
theorem daily_status_upsert_unique_w :
    ((handleDailyStatusUpdate "s2" "2024-06-01" DailyActivityStatus.cooked
        stD).dailyStatuses.length = stD.dailyStatuses.length ∧
      List.Forall₂ (fun d' d =>
          d'.id = d.id ∧ d'.userId = d.userId ∧ d'.date = d.date ∧
          (d.date ≠ "2024-06-01" → d' = d) ∧
          (d.date = "2024-06-01" → d'.status = DailyActivityStatus.cooked))
        (handleDailyStatusUpdate "s2" "2024-06-01" DailyActivityStatus.cooked
          stD).dailyStatuses
        stD.dailyStatuses) ∧
    ((handleDailyStatusUpdate "s2" "2024-06-01" DailyActivityStatus.cooked
        stD).dailyStatuses.map (fun d => d.date)).Nodup ∧
    (handleConsume "r1" "d2" 0 "2024-06-01" "a" 5 ConsumptionReason.cooking
        stD).dailyStatuses = stD.dailyStatuses ∧
    (handleConsume "r1" "d2" 0 "2024-06-01" "a" 5 ConsumptionReason.cooking
        stA).dailyStatuses =
      stA.dailyStatuses ++
        [{ id := "d2"
           userId := stA.currentUserId
           date := "2024-06-01"
           status := DailyActivityStatus.cooked }] ∧
    ((handleConsume "r1" "d2" 0 "2024-06-01" "a" 5 ConsumptionReason.cooking
        stA).dailyStatuses.map (fun d => d.date)).Nodup :=
  ⟨daily_status_upsert_unique.1 "s2" "2024-06-01" DailyActivityStatus.cooked
      stD dsA (by decide),
   daily_status_upsert_unique.2.1 "s2" "2024-06-01" DailyActivityStatus.cooked
      stD (by decide),
   daily_status_upsert_unique.2.2.1 "r1" "d2" 0 "2024-06-01" "a" 5
      ConsumptionReason.cooking stD dsA (by decide),
   daily_status_upsert_unique.2.2.2.1 "r1" "d2" 0 "2024-06-01" "a" 5
      ConsumptionReason.cooking stA ingA (by decide) (by decide),
   daily_status_upsert_unique.2.2.2.2 "r1" "d2" 0 "2024-06-01" "a" 5
      ConsumptionReason.cooking stA (by decide)⟩

/-- C8, counterexample: a successful extractor result whose category string
is "snacks" (not one of the six enumeration values) is merged as-is into
the draft: the draft category becomes "snacks", instead of falling back to
others. -/
theorem mergeOCR_unvalidated_category_cex :
    (mergeOCR (some { name := "薯片"
                      category := "snacks"
                      productionDate := none
                      shelfLifeValue := none
                      shelfLifeUnit := none })
      { name := ""
        category := "others"
        prodDate := "2024-06-01"
        lifeVal := 7
        lifeUnit := "day" }).category = "snacks" ∧
    "snacks" ∉ categoryStrings := by
  decide

/-- C8, amended: an extractor failure yields no draft (none) and the merge
then leaves the form unchanged, so failures never propagate; but on a
successful result the category string is merged without validation against
the category enumeration: any non-empty category string is stored as-is
(an empty one keeps the previous draft category), so an unrecognized
string flows into the draft instead of falling back to others. -/
theorem mergeOCR_partial_merge_no_validation :
    (∀ f : DraftForm, mergeOCR none f = f) ∧
    (∀ (i : ExtractedFoodInfo) (f : DraftForm), i.category ≠ "" →
      (mergeOCR (some i) f).category = i.category) ∧
    (∀ (i : ExtractedFoodInfo) (f : DraftForm), i.category = "" →
      (mergeOCR (some i) f).category = f.category) ∧
    (∀ (i : ExtractedFoodInfo) (f : DraftForm), i.category ≠ "" →
      i.category ∉ categoryStrings →
      (mergeOCR (some i) f).category ∉ categoryStrings) := by
  refine ⟨fun f => rfl, ?_, ?_, ?_⟩
  · intro i f h
    simp [mergeOCR, h]
  · intro i f h
    simp [mergeOCR, h]
  · intro i f h hns
    simpa [mergeOCR, h] using hns

/-- C8, witness for the amended theorem. -/
theorem mergeOCR_partial_merge_no_validation_w :
    mergeOCR none
      { name := ""
        category := "others"
        prodDate := "2024-06-01"
        lifeVal := 7
        lifeUnit := "day" } =
      { name := ""
        category := "others"
        prodDate := "2024-06-01"
        lifeVal := 7
        lifeUnit := "day" } ∧
    (mergeOCR (some { name := "薯片"
                      category := "snacks"
                      productionDate := none
                      shelfLifeValue := none
                      shelfLifeUnit := none })
      { name := ""
        category := "others"
        prodDate := "2024-06-01"
        lifeVal := 7
        lifeUnit := "day" }).category = "snacks" ∧
    (mergeOCR (some { name := "薯片"
                      category := ""
                      productionDate := none
                      shelfLifeValue := none
                      shelfLifeUnit := none })
      { name := ""
        category := "others"
        prodDate := "2024-06-01"
        lifeVal := 7
        lifeUnit := "day" }).category = "others" ∧
    (mergeOCR (some { name := "薯片"
                      category := "snacks"
                      productionDate := none
                      shelfLifeValue := none
                      shelfLifeUnit := none })
      { name := ""
        category := "others"
        prodDate := "2024-06-01"
        lifeVal := 7
        lifeUnit := "day" }).category ∉ categoryStrings :=
  ⟨mergeOCR_partial_merge_no_validation.1 _,
   mergeOCR_partial_merge_no_validation.2.1 _ _ (by decide),
   mergeOCR_partial_merge_no_validation.2.2.1 _ _ (by decide),
   mergeOCR_partial_merge_no_validation.2.2.2 _ _ (by decide) (by decide)⟩

/-- C9, counterexample: with the manual latch unset and a draft currently
classified as meat, a name matching no keyword of any category leaves the
category at meat: the effect does not assign others on a missed match, as
the claim states. -/
theorem classifyEffect_no_match_keeps_category_cex :
    classifyEffect "abc" false Category.meat = Category.meat ∧
    Category.meat ≠ Category.others := by
  decide

/-- C9, amended: the effect scans the fixed ordered keyword table and
assigns the category of the first entry with a substring keyword match in
the name; when no keyword of any category matches, the current draft
category is kept unchanged (it is not reset to others; the initial draft
category is others, so a fresh draft shows others); once the manual
selection latch is set the effect always leaves the category unchanged. -/
theorem classifyEffect_first_match_and_latch :
    (∀ (name : String) (c : Category), classifyEffect name true c = c) ∧
    (∀ (name : String) (c : Category), name ≠ "" →
      ∀ (k : Nat) (hk : k < CATEGORY_KEYWORDS.length),
        matchesCat name (CATEGORY_KEYWORDS.get ⟨k, hk⟩) = true →
        (∀ (j : Nat) (hj : j < CATEGORY_KEYWORDS.length), j < k →
          matchesCat name (CATEGORY_KEYWORDS.get ⟨j, hj⟩) = false) →
        classifyEffect name false c = (CATEGORY_KEYWORDS.get ⟨k, hk⟩).1) ∧
    (∀ (name : String) (c : Category), name ≠ "" →
      (∀ p ∈ CATEGORY_KEYWORDS, matchesCat name p = false) →
      classifyEffect name false c = c) := by
  refine ⟨fun name c => by simp [classifyEffect], ?_, ?_⟩
  · intro name c hname k hk hp hearly
    have hf := find?_at_first_index (fun p => matchesCat name p)
      CATEGORY_KEYWORDS k hk hp hearly
    simp [classifyEffect, hname, hf]
  · intro name c hname hnone
    have hf : CATEGORY_KEYWORDS.find? (fun p => matchesCat name p) = none :=
      List.find?_eq_none.mpr (fun x hx => by simp [hnone x hx])
    simp [classifyEffect, hname, hf]

/-- C9, witness for the amended theorem: 牛奶 contains the dairy keyword 奶
and no keyword of the two earlier entries, so the effect picks dairy; abc
matches nothing and keeps the current category. -/
theorem classifyEffect_first_match_and_latch_w :
    classifyEffect "abc" true Category.meat = Category.meat ∧
    classifyEffect "牛奶" false Category.others = Category.dairy ∧
    classifyEffect "abc" false Category.others = Category.others := by
  refine ⟨classifyEffect_first_match_and_latch.1 "abc" Category.meat, ?_, ?_⟩
  · have h := classifyEffect_first_match_and_latch.2.1 "牛奶" Category.others
      (by decide) 2 (by decide) (by decide) ?_
    · exact h.trans (by decide)
    · intro j hj hjk
      interval_cases j
      · rfl
      · rfl
  · exact classifyEffect_first_match_and_latch.2.2 "abc" Category.others
      (by decide) (by decide)

/-- C5: along any sequence of consume calls with nonnegative requested
quantities, on a state whose ingredient ids are distinct, every ingredient
keeps its id and initialQuantity, its currentQuantity never increases,
stays nonnegative, and stays at most initialQuantity (given it started
so); moreover a single consume that brings the found target to or below
zero sets its currentQuantity to exactly 0 and its status to consumed. -/
theorem consume_sequence_monotonic_and_zero_clamp :
    (∀ (calls : List ConsumeCall) (s : AppState),
      (∀ c ∈ calls, 0 ≤ c.quantity) →
      (s.ingredients.map (fun i => i.id)).Nodup →
      List.Forall₂ (fun i' i =>
          i'.id = i.id ∧ i'.initialQuantity = i.initialQuantity ∧
          (0 ≤ i.currentQuantity →
            0 ≤ i'.currentQuantity ∧ i'.currentQuantity ≤ i.currentQuantity) ∧
          (0 ≤ i.currentQuantity ∧ i.currentQuantity ≤ i.initialQuantity →
            i'.currentQuantity ≤ i'.initialQuantity))
        (runConsumes calls s).ingredients s.ingredients) ∧
    (∀ (recId stId : String) (now : Int) (todayStr iid : String) (q : ℚ)
        (reason : ConsumptionReason) (s : AppState) (ing : Ingredient),
      s.ingredients.find? (fun i => decide (i.id = iid)) = some ing →
      ing.currentQuantity - q ≤ 0 →
      List.Forall₂ (fun i' i => i.id = iid →
          i'.currentQuantity = 0 ∧ i'.status = IngredientStatus.consumed)
        (handleConsume recId stId now todayStr iid q reason s).ingredients
        s.ingredients) := by
  constructor
  · intro calls
    induction calls with
    | nil =>
      intro s hq hnd
      simp only [runConsumes, List.foldl]
      exact List.forall₂_same.mpr
        (fun x hx => ⟨rfl, rfl, fun h => ⟨h, le_refl _⟩, fun h => h.2⟩)
    | cons c cs ih =>
      intro s hq hnd
      have hstep := consume_step_rel c s (hq c (List.mem_cons_self c cs)) hnd
      have hids := consume_ids_preserved c s
      have hnd2 : ((applyCall c s).ingredients.map (fun i => i.id)).Nodup := by
        rw [hids]
        exact hnd
      have hrest := ih (applyCall c s)
        (fun d hd => hq d (List.mem_cons_of_mem c hd)) hnd2
      have hrun : runConsumes (c :: cs) s = runConsumes cs (applyCall c s) :=
        rfl
      rw [hrun]
      refine forall₂_comp_trans ?_ hrest hstep
      intro a b c2 hab hbc
      refine ⟨hab.1.trans hbc.1, hab.2.1.trans hbc.2.1, ?_, ?_⟩
      · intro h0
        obtain ⟨hb0, hble⟩ := hbc.2.2.1 h0
        obtain ⟨ha0, hale⟩ := hab.2.2.1 hb0
        exact ⟨ha0, hale.trans hble⟩
      · intro h
        obtain ⟨hb0, hble⟩ := hbc.2.2.1 h.1
        have hbinit := hbc.2.2.2 h
        exact hab.2.2.2 ⟨hb0, hbinit⟩
  · intro recId stId now todayStr iid q reason s ing hfind hle
    simp only [handleConsume, hfind]
    apply forall₂_map_left_self
    intro x hx hid
    have hmax : max 0 (ing.currentQuantity - q) = 0 := max_eq_left hle
    simp [hid, hmax]

/-- C5, witness: two consume calls (2 then 999) on the sample state, and a
single over-consume of 60 against the 50 held by the sample ingredient. -/
theorem consume_sequence_monotonic_and_zero_clamp_w :
    List.Forall₂ (fun i' i =>
        i'.id = i.id ∧ i'.initialQuantity = i.initialQuantity ∧
        (0 ≤ i.currentQuantity →
          0 ≤ i'.currentQuantity ∧ i'.currentQuantity ≤ i.currentQuantity) ∧
        (0 ≤ i.currentQuantity ∧ i.currentQuantity ≤ i.initialQuantity →
          i'.currentQuantity ≤ i'.initialQuantity))
      (runConsumes
        [{ recId := "r1"
           stId := "d1"
           now := 0
           todayStr := "2024-06-01"
           ingredientId := "a"
           quantity := 2
           reason := ConsumptionReason.cooking },
         { recId := "r2"
           stId := "d2"
           now := 0
           todayStr := "2024-06-01"
           ingredientId := "a"
           quantity := 999
           reason := ConsumptionReason.cooking }] stA).ingredients
      stA.ingredients ∧
    List.Forall₂ (fun i' i => i.id = "a" →
        i'.currentQuantity = 0 ∧ i'.status = IngredientStatus.consumed)
      (handleConsume "r1" "d1" 0 "2024-06-01" "a" 60 ConsumptionReason.cooking
        stA).ingredients
      stA.ingredients :=
  ⟨consume_sequence_monotonic_and_zero_clamp.1
      [{ recId := "r1"
         stId := "d1"
         now := 0
         todayStr := "2024-06-01"
         ingredientId := "a"
         quantity := 2
         reason := ConsumptionReason.cooking },
       { recId := "r2"
         stId := "d2"
         now := 0
         todayStr := "2024-06-01"
         ingredientId := "a"
         quantity := 999
         reason := ConsumptionReason.cooking }] stA (by decide) (by decide),
   consume_sequence_monotonic_and_zero_clamp.2 "r1" "d1" 0 "2024-06-01" "a"
      60 ConsumptionReason.cooking stA ingA (by decide) (by norm_num [ingA])⟩

end FoodFirst
